import Mathlib

/-!
Verification of the foodgram recipe-sharing backend.

Shallow embedding of the backend's data model and the operations of the
aggregation engine, validators, recipe authoring, relation management and
subscription engine, translated from the Django source:

* src/backend/api/views.py        (ShoppingPDFView.get)
* src/backend/api/mixins.py       (RecipeActionMixin)
* src/backend/api/validators.py   (validate_ids_not_null_unique_collection, …)
* src/backend/api/serializers.py  (RecipesSerializer, SubscribeSerializer, …)
* src/backend/users/serializers.py (SubscriptionsSerializer, SubscribeSerializer)
* src/backend/recipes/models.py   (Ingredient, IngredientRecipe, UsingRecipe, …)
* src/backend/users/models.py     (Follow)

Database tables are lists of rows; Django querysets become list filters and
maps; exceptions become Except; the transaction.atomic decorator becomes a
wrapper that discards the uncommitted state on error.

The source snapshot is mid-refactor: foodgram_backend/messages.py lacks most
of the Warnings constants the code references (they only hold display
strings), and api/validators.py lacks validate_positive_amount although
api/serializers.py imports and calls it.  Errors are therefore embedded as
inductive tags named after the constants the code references, and
validate_positive_amount is modelled from the spec where noted.
-/

namespace Foodgram

/-- Ingredient record (recipes/models.py, class Ingredient): a name and a
measurement unit; the id is the primary key. -/
structure Ingredient where
  id : Nat
  name : String
  measurement_unit : String
  deriving DecidableEq

/-- Tag record (recipes/models.py, class Tag); only the id matters here. -/
structure TagRow where
  id : Nat
  deriving DecidableEq

/-- Recipe record (recipes/models.py, class Recipe): scalar fields relevant
to the claims; tags and line items live in separate join tables. -/
structure Recipe where
  id : Nat
  author_id : Nat
  name : String
  text : String
  cooking_time : Int
  deriving DecidableEq

/-- IngredientRecipe line item (recipes/models.py, class IngredientRecipe):
one (ingredient, amount) pairing attached to a recipe. -/
structure IngredientRecipe where
  ingredient_id : Nat
  recipe_id : Nat
  amount : Int
  deriving DecidableEq

/-- User to recipe relation row (recipes/models.py, class UsingRecipe, the
shared shape of FavoriteRecipe and ShoppingRecipe). -/
structure UsingRecipe where
  user_id : Nat
  recipe_id : Nat
  deriving DecidableEq

/-- Follow record (users/models.py, class Follow): user follows author. -/
structure Follow where
  user_id : Nat
  author_id : Nat
  deriving DecidableEq

/-- User record (users/models.py, class User): id plus the is_active flag. -/
structure User where
  id : Nat
  is_active : Bool
  deriving DecidableEq

/-- The persistent store: one list of rows per table. -/
structure DB where
  users : List User
  ingredients : List Ingredient
  tags : List TagRow
  recipes : List Recipe
  ingredient_recipes : List IngredientRecipe
  recipe_tags : List (Nat × Nat)
  favorites : List UsingRecipe
  shopping : List UsingRecipe
  follows : List Follow
  deriving DecidableEq

/-! ### Aggregation engine: ShoppingPDFView.get (api/views.py 55-115) -/

/-- Recipe ids in the user's shopping cart:
request.user.shopping_user_set.all().values_list of recipe_id. -/
def shoppingRecipeIds (db : DB) (uid : Nat) : List Nat :=
  (db.shopping.filter (fun r => r.user_id == uid)).map (fun r => r.recipe_id)

/-- One fetched line item after the select_related join with Ingredient:
the values ingredient__name and ingredient__measurement_unit plus amount. -/
structure LineItem where
  name : String
  unit : String
  amount : Int
  deriving DecidableEq

/-- IngredientRecipe.objects.filter(recipe_id__in=cart).select_related,
projected to (ingredient name, measurement unit, amount).  The inner join
with the Ingredient table resolves the foreign key. -/
def cartLineItems (db : DB) (uid : Nat) : List LineItem :=
  (db.ingredient_recipes.filter
      (fun li => (shoppingRecipeIds db uid).contains li.recipe_id)).filterMap
    (fun li =>
      (db.ingredients.find? (fun i => i.id == li.ingredient_id)).map
        (fun i => ⟨i.name, i.measurement_unit, li.amount⟩))

/-- One aggregated output record, the dict built in ShoppingPDFView.get:
name, total amount, unit. -/
structure AggRow where
  name : String
  amount : Int
  unit : String
  deriving DecidableEq

/-- One step of the GROUP BY (ingredient__name, ingredient__measurement_unit)
with Sum of amount: merge a line item into the accumulated rows, adding the
amount to the row with the same (name, unit) key when one exists and
appending a fresh row otherwise.  The grouping key deliberately omits
ingredient_id. -/
def addToAgg (acc : List AggRow) (it : LineItem) : List AggRow :=
  match acc with
  | [] => [⟨it.name, it.amount, it.unit⟩]
  | r :: rest =>
    if r.name == it.name && r.unit == it.unit then
      ⟨r.name, r.amount + it.amount, r.unit⟩ :: rest
    else
      r :: addToAgg rest it

/-- The values(...).annotate(total_amount=Sum amount) grouping over all
fetched line items. -/
def aggregate (items : List LineItem) : List AggRow :=
  items.foldl addToAgg []

/-- Codepoint-wise lexicographic comparison of character lists, the model of
the string comparison the store uses for ORDER BY of ingredient__name. -/
def charLeb : List Char → List Char → Bool
  | [], _ => true
  | _ :: _, [] => false
  | a :: as, b :: bs =>
    if a.toNat < b.toNat then true
    else if b.toNat < a.toNat then false
    else charLeb as bs

/-- Lexicographic comparison of two strings by codepoint. -/
def strLeb (a b : String) : Bool := charLeb a.data b.data

/-- Ordering of aggregated rows used by order_by of ingredient__name. -/
def nameLe (a b : AggRow) : Prop := strLeb a.name b.name = true

instance : DecidableRel nameLe :=
  fun a b => inferInstanceAs (Decidable (strLeb a.name b.name = true))

/-- Aggregated rows ordered by name form a valid ORDER BY result. -/
def sortedByName (rows : List AggRow) : Prop := List.Sorted nameLe rows

/-- The ingredients_list built by ShoppingPDFView.get: grouped, summed and
ordered ascending by ingredient name. -/
def ingredients_list (db : DB) (uid : Nat) : List AggRow :=
  List.insertionSort nameLe (aggregate (cartLineItems db uid))

/-- Outcome of the shopping-list GET endpoint.  Modelled from the spec: the
204 branch references Warnings.SHOPPING_LIST_EMPTY, a constant absent from
foodgram_backend/messages.py in the snapshot; the spec calls this branch the
explicit empty-result signal, distinct from an error. -/
inductive ShoppingListResult where
  /-- HTTP 204 No Content with the SHOPPING_LIST_EMPTY detail. -/
  | noContent
  /-- HTTP 200 with the generated PDF for the given aggregated rows. -/
  | document (rows : List AggRow)
  /-- HTTP 500, the generic handler for any exception raised inside the
  try block, in particular a store failure during the line-item fetch. -/
  | serverError
  deriving DecidableEq

/-- ShoppingPDFView.get (api/views.py 55-115).  The queryset is evaluated
inside the try block; fetchFails injects a store failure there, which the
final except-Exception clause turns into a 500 response. -/
def shoppingPDFGet (db : DB) (uid : Nat) (fetchFails : Bool) : ShoppingListResult :=
  if fetchFails then .serverError
  else
    let rows := ingredients_list db uid
    if rows.isEmpty then .noContent else .document rows

/-- Total amount carried by the line items with the given (name, unit) key. -/
def keyTotal (n u : String) (items : List LineItem) : Int :=
  ((items.filter (fun it => it.name == n && it.unit == u)).map
    (fun it => it.amount)).sum

/-- Total amount carried by the aggregated rows with the given key. -/
def rowTotal (n u : String) (rows : List AggRow) : Int :=
  ((rows.filter (fun r => r.name == n && r.unit == u)).map
    (fun r => r.amount)).sum

/-- Grouping keys of a list of aggregated rows. -/
def aggKeys (rows : List AggRow) : List (String × String) :=
  rows.map (fun r => (r.name, r.unit))

/-! ### Collection validators (api/validators.py) and recipe payload
validation (api/serializers.py, RecipesSerializer) -/

/-- Validation failures raised by the collection and amount validators.  The
first three mirror the constants the code looks up on Warnings via getattr
with the collection name as pfx (TAGS_REQUIRED, TAGS_DUPLICATE_ERROR,
TAGS_NOT_FOUND and the INGREDIENTS_ counterparts); those constants are
absent from messages.py in the snapshot, so the tag carries the collection
name.  invalidAmount is the InvalidAmount failure of the spec. -/
inductive ValidationError where
  /-- validate_required_field: the collection named pfx is empty. -/
  | fieldRequired (pfx : String)
  /-- The collection named pfx holds duplicate ids. -/
  | duplicateIds (pfx : String)
  /-- Some id of the collection named pfx resolves to no record. -/
  | idsNotFound (pfx : String)
  /-- An ingredient amount is not a positive integer. -/
  | invalidAmount
  deriving DecidableEq

/-- validate_required_field (api/validators.py 11-28) on a collection:
Python falsiness of a list is emptiness. -/
def validate_required_field (values : List α) (pfx : String) :
    Except ValidationError Unit :=
  if values.isEmpty then .error (.fieldRequired pfx) else .ok ()

/-- validate_ids_not_null_unique_collection (api/validators.py 31-70):
checks presence, uniqueness of the extracted ids, and existence of every id
among the model's records, in that order, and returns the collection
unchanged when all checks pass.  getId is the extraction of value of id;
existing is the values_list of ids of the model table. -/
def validate_ids_not_null_unique_collection (getId : α → Nat)
    (existing : List Nat) (pfx : String) (values : List α) :
    Except ValidationError (List α) :=
  match validate_required_field values pfx with
  | .error e => .error e
  | .ok _ =>
    let value_ids := values.map getId
    if value_ids.length ≠ value_ids.dedup.length then
      .error (.duplicateIds pfx)
    else
      let existing_ids := existing.filter (fun i => value_ids.contains i)
      let missing_ids := value_ids.dedup.filter
        (fun i => !existing_ids.contains i)
      if missing_ids.isEmpty then .ok values else .error (.idsNotFound pfx)

/-- One entry of the tags list of a recipe write payload: a dict with id. -/
structure TagPayload where
  id : Nat
  deriving DecidableEq

/-- One entry of the ingredients list of a recipe write payload: a dict
with id and amount. -/
structure IngredientPayload where
  id : Nat
  amount : Int
  deriving DecidableEq

/-- Ids of the Tag table, as Tag.objects values_list of id. -/
def tagIds (db : DB) : List Nat := db.tags.map (fun t => t.id)

/-- Ids of the Ingredient table. -/
def ingredientIds (db : DB) : List Nat := db.ingredients.map (fun i => i.id)

/-- RecipesSerializer.validate_tags (api/serializers.py 705-724). -/
def validate_tags (db : DB) (tags : List TagPayload) :
    Except ValidationError (List TagPayload) :=
  validate_ids_not_null_unique_collection (fun t => t.id) (tagIds db)
    "tags" tags

/-- Modelled from the spec: validate_positive_amount is imported by
api/serializers.py from api/validators.py and applied to every ingredient
amount, but its definition is absent from the snapshot.  The spec states
that each ingredient amount must be a positive integer, else InvalidAmount;
the integrality is carried by the Int type of the IntegerField. -/
def validate_positive_amount (amount : Int) : Except ValidationError Unit :=
  if 0 < amount then .ok () else .error .invalidAmount

/-- The amount loop at the head of RecipesSerializer.validate_ingredients
(api/serializers.py 741-742): validate each amount in order, stopping at
the first failure. -/
def validate_amounts (ingredients : List IngredientPayload) :
    Except ValidationError Unit :=
  match ingredients with
  | [] => .ok ()
  | i :: rest =>
    match validate_positive_amount i.amount with
    | .ok _ => validate_amounts rest
    | .error e => .error e

/-- RecipesSerializer.validate_ingredients (api/serializers.py 726-747):
the positive-amount loop, then the collection validator. -/
def validate_ingredients (db : DB) (ingredients : List IngredientPayload) :
    Except ValidationError (List IngredientPayload) :=
  match validate_amounts ingredients with
  | .error e => .error e
  | .ok _ =>
    validate_ids_not_null_unique_collection (fun i => i.id)
      (ingredientIds db) "ingredients" ingredients

/-! ### Recipe authoring (api/serializers.py RecipesSerializer.create and
update, api/mixins.py RecipeActionMixin.handle_request) -/

/-- The write payload of a recipe create or update request. -/
structure RecipePayload where
  name : String
  text : String
  cooking_time : Int
  tags : List TagPayload
  ingredients : List IngredientPayload
  deriving DecidableEq

/-- Failure injection for the ingredient bulk insert: bulk_create either
succeeds or raises after writing the first k rows. -/
inductive BulkInsertOutcome where
  | succeeds
  | failsAfter (k : Nat)
  deriving DecidableEq

/-- A save failure: either a validation error raised by is_valid, or the
store error raised inside bulk_create. -/
inductive SaveError where
  | validation (errs : List ValidationError)
  | bulkInsertFailed
  deriving DecidableEq

/-- The IngredientRecipe rows bulk_create builds from the payload
(api/serializers.py 775-782). -/
def rowsOfPayload (rid : Nat) (ingredients : List IngredientPayload) :
    List IngredientRecipe :=
  ingredients.map (fun d => ⟨d.id, rid, d.amount⟩)

/-- RecipesSerializer.save_ingredients (api/serializers.py 763-784):
delete every line item of the recipe, then bulk_create the payload rows.
On an injected mid-insert failure the error carries the uncommitted dirty
state, so that the transaction wrapper can be seen to discard it. -/
def save_ingredients (inj : BulkInsertOutcome)
    (ingredients : List IngredientPayload) (rid : Nat) (db : DB) :
    Except (SaveError × DB) DB :=
  let cleared :=
    { db with ingredient_recipes :=
        db.ingredient_recipes.filter (fun r => r.recipe_id != rid) }
  match inj with
  | .succeeds =>
    .ok { cleared with ingredient_recipes :=
            cleared.ingredient_recipes ++ rowsOfPayload rid ingredients }
  | .failsAfter k =>
    .error (.bulkInsertFailed,
      { cleared with ingredient_recipes :=
          cleared.ingredient_recipes ++ (rowsOfPayload rid ingredients).take k })

/-- RecipesSerializer.save_tags (api/serializers.py 749-761):
instance.tags.set replaces the whole tag association of the recipe. -/
def save_tags (tags : List TagPayload) (rid : Nat) (db : DB) : DB :=
  { db with recipe_tags :=
      db.recipe_tags.filter (fun p => p.1 != rid) ++
        tags.map (fun t => (rid, t.id)) }

/-- RecipesSerializer.update (api/serializers.py 814-842): set the scalar
fields on the instance, replace ingredients, replace tags, save the
instance. -/
def updateRecipe (inj : BulkInsertOutcome) (rid : Nat) (p : RecipePayload)
    (db : DB) : Except (SaveError × DB) DB :=
  match save_ingredients inj p.ingredients rid db with
  | .error e => .error e
  | .ok db1 =>
    let db2 := save_tags p.tags rid db1
    .ok { db2 with recipes := db2.recipes.map (fun r =>
            if r.id == rid then
              { r with name := p.name, text := p.text,
                       cooking_time := p.cooking_time }
            else r) }

/-- RecipesSerializer.create (api/serializers.py 786-812):
Recipe.objects.create, then save_ingredients, then save_tags.  newId is the
fresh primary key the store assigns. -/
def createRecipe (inj : BulkInsertOutcome) (newId author_id : Nat)
    (p : RecipePayload) (db : DB) : Except (SaveError × DB) DB :=
  match save_ingredients inj p.ingredients newId
      { db with recipes :=
          db.recipes ++ [⟨newId, author_id, p.name, p.text, p.cooking_time⟩] } with
  | .error e => .error e
  | .ok db1 => .ok (save_tags p.tags newId db1)

/-- serializer.is_valid: the framework runs validate_tags and
validate_ingredients as field validators and collects the per-field errors
of both before raising. -/
def is_valid (db : DB) (p : RecipePayload) :
    Except (List ValidationError) Unit :=
  match validate_tags db p.tags, validate_ingredients db p.ingredients with
  | .ok _, .ok _ => .ok ()
  | .error e, .ok _ => .error [e]
  | .ok _, .error e => .error [e]
  | .error e1, .error e2 => .error [e1, e2]

/-- Outcome of a recipe create or update request. -/
inductive RequestOutcome where
  | success
  | failure (e : SaveError)
  deriving DecidableEq

/-- RecipeActionMixin.handle_request (api/mixins.py 108-158), which carries
the transaction.atomic decorator: validation, then serializer.save.  The
result pairs the response outcome with the observable committed store; on
any failure the transaction rolls back, so the dirty state carried by the
error is discarded and the store of record stays the pre-request one. -/
def handle_request (inj : BulkInsertOutcome) (instanceId : Option Nat)
    (newId author_id : Nat) (p : RecipePayload) (db : DB) :
    RequestOutcome × DB :=
  match is_valid db p with
  | .error errs => (.failure (.validation errs), db)
  | .ok _ =>
    let saved :=
      match instanceId with
      | some rid => updateRecipe inj rid p db
      | none => createRecipe inj newId author_id p db
    match saved with
    | .ok db1 => (.success, db1)
    | .error (e, _dirty) => (.failure e, db)

/-- Tag ids currently associated with a recipe. -/
def recipeTagIds (db : DB) (rid : Nat) : List Nat :=
  (db.recipe_tags.filter (fun p => p.1 == rid)).map (fun p => p.2)

/-- All stored line-item amounts are positive integers. -/
def allAmountsPos (db : DB) : Prop :=
  ∀ r ∈ db.ingredient_recipes, 0 < r.amount

/-! ### Relation management: RecipeActionMixin, favorite and shopping-cart
rows (api/mixins.py 20-106, recipes/models.py UsingRecipe) -/

/-- The two relation kinds sharing the UsingRecipe shape. -/
inductive RelKind where
  | favorite
  | shopping
  deriving DecidableEq

/-- Rows of the relation table of the given kind. -/
def relRows (db : DB) : RelKind → List UsingRecipe
  | .favorite => db.favorites
  | .shopping => db.shopping

/-- Replace the relation table of the given kind. -/
def setRelRows (db : DB) (k : RelKind) (rows : List UsingRecipe) : DB :=
  match k with
  | .favorite => { db with favorites := rows }
  | .shopping => { db with shopping := rows }

/-- The store-level UniqueConstraint on (user, recipe) declared in
UsingRecipe.Meta (recipes/models.py 294-301): an insert whose key already
exists fails at the store, independently of any application-level check. -/
def storeInsertRelation (rows : List UsingRecipe) (row : UsingRecipe) :
    Except Unit (List UsingRecipe) :=
  if rows.any (fun r =>
      r.user_id == row.user_id && r.recipe_id == row.recipe_id) then
    .error ()
  else
    .ok (rows ++ [row])

/-- Response of the add action.  Modelled from the spec where it names the
kind: the exists_message passed by views.py is
Warnings.RECIPE_IN_SHOPPING_CART_EXISTS or RECIPE_IN_FAVORITE_EXISTS, two
kind-specific constants absent from messages.py in the snapshot; the spec
says the AlreadyExists error names the kind. -/
inductive ActionResult where
  /-- HTTP 201 with the recipe projection. -/
  | created
  /-- HTTP 400 with the kind-specific exists_message. -/
  | alreadyExists (k : RelKind)
  /-- HTTP 404: the recipe does not exist. -/
  | notFound
  /-- HTTP 500: an unexpected store error, e.g. the uniqueness constraint
  firing under a concurrent insert. -/
  | serverError
  deriving DecidableEq

/-- The POST branch of RecipeActionMixin handle_action (api/mixins.py
44-75): fetch the recipe (404 when absent), return the kind-specific
exists message when the relation row is already present, otherwise insert
through the store, whose uniqueness constraint turns a duplicate into the
generic 500 handler. -/
def handle_action_post (db : DB) (k : RelKind) (uid rid : Nat) :
    ActionResult × DB :=
  if db.recipes.any (fun r => r.id == rid) then
    if ((relRows db k).filter
        (fun r => r.user_id == uid && r.recipe_id == rid)).isEmpty then
      match storeInsertRelation (relRows db k) ⟨uid, rid⟩ with
      | .ok rows => (.created, setRelRows db k rows)
      | .error _ => (.serverError, db)
    else
      (.alreadyExists k, db)
  else
    (.notFound, db)

/-- Number of stored relation rows of a kind for a (user, recipe) pair. -/
def relCount (db : DB) (k : RelKind) (uid rid : Nat) : Nat :=
  ((relRows db k).filter
    (fun r => r.user_id == uid && r.recipe_id == rid)).length

/-! ### Subscription engine (users/serializers.py SubscribeSerializer,
users/models.py Follow.save) -/

/-- Validation failures of SubscribeSerializer.validate, in the order the
code raises them.  SELF_SUBSCRIBE_FORBIDDEN is a constant present in
messages.py. -/
inductive SubscribeError where
  | requestContextMissing
  | authenticationRequired
  | authorRequired
  | selfSubscribeForbidden
  | inactiveUser
  | subscriptionAlreadyExists
  deriving DecidableEq

/-- SubscribeSerializer.validate (users/serializers.py 334-381, identical
in api/serializers.py 1045-1092): request context, authentication, author
presence, self-subscription, target activity, duplicate subscription, in
that order.  The Python comparison user == author is Django model equality,
i.e. primary-key equality. -/
def subscribe_validate (hasRequestContext isAuthenticated : Bool)
    (user : User) (authorOpt : Option User) (follows : List Follow) :
    Except SubscribeError Unit :=
  if !hasRequestContext then .error .requestContextMissing
  else if !isAuthenticated then .error .authenticationRequired
  else
    match authorOpt with
    | none => .error .authorRequired
    | some author =>
      if user.id == author.id then .error .selfSubscribeForbidden
      else if !author.is_active then .error .inactiveUser
      else if follows.any (fun f =>
          f.user_id == user.id && f.author_id == author.id) then
        .error .subscriptionAlreadyExists
      else
        .ok ()

/-- Store errors of Follow.save. -/
inductive FollowSaveError where
  /-- The ValueError raised by Follow.save (users/models.py 170-173) when
  user equals author. -/
  | selfFollowValueError
  /-- The unique_followings store constraint (users/models.py 155-168). -/
  | uniqueViolation
  deriving DecidableEq

/-- Follow.save (users/models.py 170-173) plus the unique_followings
constraint: refuse a self row, refuse a duplicate (user, author) pair,
otherwise append the row. -/
def followSave (follows : List Follow) (f : Follow) :
    Except FollowSaveError (List Follow) :=
  if f.user_id == f.author_id then .error .selfFollowValueError
  else if follows.any (fun g =>
      g.user_id == f.user_id && g.author_id == f.author_id) then
    .error .uniqueViolation
  else
    .ok (follows ++ [f])

/-- Response of the subscribe POST action (api/views.py 518-541): a
validation failure becomes a 400 with the serializer error, an unexpected
error during save becomes the generic 500 handler, success creates the
Follow row. -/
inductive SubscribeResult where
  | created (follows : List Follow)
  | badRequest (e : SubscribeError)
  | serverError
  deriving DecidableEq

/-- The subscribe POST flow: SubscribeSerializer.is_valid then save.  The
view runs behind IsAuthenticatedAndActive, so the request context is
present and the caller authenticated. -/
def subscribePost (user author : User) (follows : List Follow) :
    SubscribeResult :=
  match subscribe_validate true true user (some author) follows with
  | .error e => .badRequest e
  | .ok _ =>
    match followSave follows ⟨user.id, author.id⟩ with
    | .ok fs => .created fs
    | .error _ => .serverError

/-! ### Subscription listing (users/serializers.py
SubscriptionsSerializer.get_recipes 267-299, identical in
api/serializers.py 979-1010) -/

/-- Result of get_recipes: either the serialized recipe list or the
recipes_limit validation error. -/
inductive RecipesLimitResult where
  | recipesData (recipes : List Recipe)
  | limitValidationError
  deriving DecidableEq

/-- SubscriptionsSerializer.get_recipes: the recipes_limit query parameter
after int parsing, none when the parameter is absent or empty.  A negative
value raises ValueError, caught and re-raised as the validation error; the
later truthiness test on the parsed int skips the slice when the value is
zero, so zero behaves exactly like an absent parameter. -/
def get_recipes (limitOpt : Option Int) (userRecipes : List Recipe) :
    RecipesLimitResult :=
  match limitOpt with
  | none => .recipesData userRecipes
  | some n =>
    if n < 0 then .limitValidationError
    else if n ≠ 0 then .recipesData (userRecipes.take n.toNat)
    else .recipesData userRecipes

/-! ### Concrete stores used as test vectors -/

/-- The validation errors a request payload produces, empty when valid. -/
def validationErrors (db : DB) (p : RecipePayload) : List ValidationError :=
  match is_valid db p with
  | .ok _ => []
  | .error errs => errs

/-- Store of the sum-correctness example of the spec: two distinct Flour
ingredient records with identical (name, unit), used by two different cart
recipes with amounts 100 and 50. -/
def flourDb : DB :=
  { users := [⟨1, true⟩]
    ingredients := [⟨1, "Flour", "g"⟩, ⟨2, "Flour", "g"⟩]
    tags := []
    recipes := [⟨10, 1, "Bread", "", 30⟩, ⟨20, 1, "Cake", "", 40⟩]
    ingredient_recipes := [⟨1, 10, 100⟩, ⟨2, 20, 50⟩]
    recipe_tags := []
    favorites := []
    shopping := [⟨1, 10⟩, ⟨1, 20⟩]
    follows := [] }

/-- Store of the sort-order example of the spec: one cart recipe whose
ingredients are named Zucchini, Apple and Milk. -/
def zucchiniDb : DB :=
  { users := [⟨1, true⟩]
    ingredients := [⟨1, "Zucchini", "g"⟩, ⟨2, "Apple", "g"⟩, ⟨3, "Milk", "ml"⟩]
    tags := []
    recipes := [⟨10, 1, "Mix", "", 30⟩]
    ingredient_recipes := [⟨1, 10, 1⟩, ⟨2, 10, 2⟩, ⟨3, 10, 3⟩]
    recipe_tags := []
    favorites := []
    shopping := [⟨1, 10⟩]
    follows := [] }

/-- Store with a non-empty cart whose recipe has no line items. -/
def cartNoItemsDb : DB :=
  { users := [⟨1, true⟩]
    ingredients := []
    tags := []
    recipes := [⟨10, 1, "Water", "", 1⟩]
    ingredient_recipes := []
    recipe_tags := []
    favorites := []
    shopping := [⟨1, 10⟩]
    follows := [] }

/-- Store used by the recipe-authoring and relation test vectors: tags 1
and 2 exist, ingredient 1 exists, recipe 10 currently carries tag 1 and a
single line item of amount 5. -/
def recipeDb : DB :=
  { users := [⟨1, true⟩, ⟨2, true⟩]
    ingredients := [⟨1, "Flour", "g"⟩]
    tags := [⟨1⟩, ⟨2⟩]
    recipes := [⟨10, 1, "Bread", "", 30⟩]
    ingredient_recipes := [⟨1, 10, 5⟩]
    recipe_tags := [(10, 1)]
    favorites := []
    shopping := []
    follows := [] }

/-- A valid write payload against recipeDb: tag 2, ingredient 1, amount 7. -/
def payloadOk : RecipePayload :=
  { name := "Bread v2", text := "", cooking_time := 25
    tags := [⟨2⟩], ingredients := [⟨1, 7⟩] }

/-- A payload whose only flaw is the non-positive ingredient amount. -/
def payloadBadAmount : RecipePayload :=
  { name := "Bread v2", text := "", cooking_time := 25
    tags := [⟨2⟩], ingredients := [⟨1, 0⟩] }

/-! ## Theorems -/

/-! ### Properties of the codepoint comparator -/

theorem charLeb_total (as bs : List Char) :
    charLeb as bs = true ∨ charLeb bs as = true := by
  induction as generalizing bs with
  | nil => exact Or.inl rfl
  | cons a as ih =>
    cases bs with
    | nil => exact Or.inr rfl
    | cons b bs =>
      by_cases hab : a.toNat < b.toNat
      · exact Or.inl (by simp [charLeb, hab])
      · by_cases hba : b.toNat < a.toNat
        · exact Or.inr (by simp [charLeb, hba])
        · rcases ih bs with h | h
          · exact Or.inl (by simp [charLeb, hab, hba, h])
          · exact Or.inr (by simp [charLeb, hab, hba, h])

theorem charLeb_trans {as bs cs : List Char} (h1 : charLeb as bs = true)
    (h2 : charLeb bs cs = true) : charLeb as cs = true := by
  induction as generalizing bs cs with
  | nil => rfl
  | cons a as ih =>
    cases bs with
    | nil => simp [charLeb] at h1
    | cons b bs =>
      cases cs with
      | nil => simp [charLeb] at h2
      | cons c cs =>
        simp only [charLeb] at h1 h2 ⊢
        by_cases hab : a.toNat < b.toNat
        · by_cases hbc : b.toNat < c.toNat
          · simp [Nat.lt_trans hab hbc]
          · by_cases hcb : c.toNat < b.toNat
            · simp [hbc, hcb] at h2
            · have hbc2 : b.toNat = c.toNat := Nat.le_antisymm
                (Nat.le_of_not_lt hcb) (Nat.le_of_not_lt hbc)
              simp [hbc2 ▸ hab]
        · by_cases hba : b.toNat < a.toNat
          · simp [hab, hba] at h1
          · have hab2 : a.toNat = b.toNat := Nat.le_antisymm
              (Nat.le_of_not_lt hba) (Nat.le_of_not_lt hab)
            by_cases hbc : b.toNat < c.toNat
            · simp [hab2 ▸ hbc]
            · by_cases hcb : c.toNat < b.toNat
              · simp [hbc, hcb] at h2
              · simp [hab, hba] at h1
                simp [hbc, hcb] at h2
                simp [hab2 ▸ hbc, hab2 ▸ hcb, ih h1 h2]

/-! ### Properties of the grouping and summation -/

theorem rowTotal_nil (n u : String) : rowTotal n u [] = 0 := rfl

theorem rowTotal_cons (n u : String) (r : AggRow) (rows : List AggRow) :
    rowTotal n u (r :: rows) =
      (if r.name == n && r.unit == u then r.amount else 0) +
        rowTotal n u rows := by
  by_cases h : (r.name == n && r.unit == u) = true
  · simp [rowTotal, List.filter_cons, h]
  · simp [rowTotal, List.filter_cons, h]

theorem keyTotal_nil (n u : String) : keyTotal n u [] = 0 := rfl

theorem keyTotal_cons (n u : String) (it : LineItem) (items : List LineItem) :
    keyTotal n u (it :: items) =
      (if it.name == n && it.unit == u then it.amount else 0) +
        keyTotal n u items := by
  by_cases h : (it.name == n && it.unit == u) = true
  · simp [keyTotal, List.filter_cons, h]
  · simp [keyTotal, List.filter_cons, h]

theorem rowTotal_addToAgg (n u : String) (acc : List AggRow) (it : LineItem) :
    rowTotal n u (addToAgg acc it) =
      rowTotal n u acc +
        (if it.name == n && it.unit == u then it.amount else 0) := by
  induction acc with
  | nil =>
    by_cases h : (it.name == n && it.unit == u) = true
    · simp [addToAgg, rowTotal_cons, rowTotal_nil, h]
    · simp [addToAgg, rowTotal_cons, rowTotal_nil, h]
  | cons r rest ih =>
    by_cases hm : (r.name == it.name && r.unit == it.unit) = true
    · have hm2 := hm
      simp only [Bool.and_eq_true, beq_iff_eq] at hm2
      obtain ⟨hn, hu⟩ := hm2
      have hstep : addToAgg (r :: rest) it =
          ⟨r.name, r.amount + it.amount, r.unit⟩ :: rest := by
        simp [addToAgg, hm]
      rw [hstep, rowTotal_cons, rowTotal_cons, hn, hu]
      by_cases hc : (it.name == n && it.unit == u) = true
      · simp only [hc, if_true]; ring
      · simp [hc]
    · have hstep : addToAgg (r :: rest) it = r :: addToAgg rest it := by
        simp [addToAgg, hm]
      rw [hstep, rowTotal_cons, ih, rowTotal_cons]; ring

theorem rowTotal_foldl (n u : String) (items : List LineItem)
    (acc : List AggRow) :
    rowTotal n u (items.foldl addToAgg acc) =
      rowTotal n u acc + keyTotal n u items := by
  induction items generalizing acc with
  | nil => simp [keyTotal_nil]
  | cons it rest ih =>
    simp only [List.foldl_cons]
    rw [ih, rowTotal_addToAgg, keyTotal_cons]; ring

theorem rowTotal_aggregate (n u : String) (items : List LineItem) :
    rowTotal n u (aggregate items) = keyTotal n u items := by
  unfold aggregate
  rw [rowTotal_foldl, rowTotal_nil, zero_add]

theorem aggKeys_cons (r : AggRow) (rows : List AggRow) :
    aggKeys (r :: rows) = (r.name, r.unit) :: aggKeys rows := rfl

theorem aggKeys_addToAgg (acc : List AggRow) (it : LineItem) :
    aggKeys (addToAgg acc it) =
      if (it.name, it.unit) ∈ aggKeys acc then aggKeys acc
      else aggKeys acc ++ [(it.name, it.unit)] := by
  induction acc with
  | nil => simp [addToAgg, aggKeys]
  | cons r rest ih =>
    by_cases hm : (r.name == it.name && r.unit == it.unit) = true
    · have hm2 := hm
      simp only [Bool.and_eq_true, beq_iff_eq] at hm2
      obtain ⟨hn, hu⟩ := hm2
      have hstep : addToAgg (r :: rest) it =
          ⟨r.name, r.amount + it.amount, r.unit⟩ :: rest := by
        simp [addToAgg, hm]
      rw [hstep]
      have hmem : (it.name, it.unit) ∈ aggKeys (r :: rest) := by
        rw [aggKeys_cons, hn, hu]
        exact List.mem_cons_self _ _
      rw [if_pos hmem, aggKeys_cons, aggKeys_cons]
    · have hm2 : ¬(r.name = it.name ∧ r.unit = it.unit) := by
        intro hand
        apply hm
        simp [Bool.and_eq_true, beq_iff_eq, hand.1, hand.2]
      have hkey : ((it.name, it.unit) : String × String) ≠ (r.name, r.unit) := by
        intro hEq
        rw [Prod.mk.injEq] at hEq
        exact hm2 ⟨hEq.1.symm, hEq.2.symm⟩
      have hstep : addToAgg (r :: rest) it = r :: addToAgg rest it := by
        simp [addToAgg, hm]
      rw [hstep, aggKeys_cons, ih, aggKeys_cons]
      by_cases hmem : (it.name, it.unit) ∈ aggKeys rest
      · rw [if_pos hmem, if_pos (List.mem_cons_of_mem _ hmem)]
      · rw [if_neg hmem, if_neg (by
          rw [List.mem_cons]
          rintro (h | h)
          · exact hkey h
          · exact hmem h)]
        simp

theorem mem_aggKeys_addToAgg (acc : List AggRow) (it : LineItem)
    (key : String × String) :
    key ∈ aggKeys (addToAgg acc it) ↔
      key ∈ aggKeys acc ∨ key = (it.name, it.unit) := by
  rw [aggKeys_addToAgg]
  by_cases hmem : (it.name, it.unit) ∈ aggKeys acc
  · rw [if_pos hmem]
    constructor
    · exact Or.inl
    · rintro (h | h)
      · exact h
      · exact h ▸ hmem
  · rw [if_neg hmem]
    simp

theorem nodup_aggKeys_addToAgg (acc : List AggRow) (it : LineItem)
    (h : (aggKeys acc).Nodup) : (aggKeys (addToAgg acc it)).Nodup := by
  rw [aggKeys_addToAgg]
  by_cases hmem : (it.name, it.unit) ∈ aggKeys acc
  · rwa [if_pos hmem]
  · rw [if_neg hmem]
    exact List.Nodup.append h (List.nodup_singleton _)
      (fun a ha hb => by
        rw [List.mem_singleton] at hb
        exact hmem (hb ▸ ha))

theorem nodup_aggKeys_foldl (items : List LineItem) (acc : List AggRow)
    (h : (aggKeys acc).Nodup) :
    (aggKeys (items.foldl addToAgg acc)).Nodup := by
  induction items generalizing acc with
  | nil => simpa using h
  | cons it rest ih =>
    simp only [List.foldl_cons]
    exact ih _ (nodup_aggKeys_addToAgg _ _ h)

theorem mem_aggKeys_foldl (items : List LineItem) (acc : List AggRow)
    (key : String × String) :
    key ∈ aggKeys (items.foldl addToAgg acc) ↔
      key ∈ aggKeys acc ∨ ∃ it ∈ items, key = (it.name, it.unit) := by
  induction items generalizing acc with
  | nil => simp
  | cons it rest ih =>
    simp only [List.foldl_cons]
    rw [ih, mem_aggKeys_addToAgg]
    simp only [List.mem_cons]
    constructor
    · rintro ((h | h) | ⟨x, hx, hk⟩)
      · exact Or.inl h
      · exact Or.inr ⟨it, Or.inl rfl, h⟩
      · exact Or.inr ⟨x, Or.inr hx, hk⟩
    · rintro (h | ⟨x, hx | hx, hk⟩)
      · exact Or.inl (Or.inl h)
      · exact Or.inl (Or.inr (hx ▸ hk))
      · exact Or.inr ⟨x, hx, hk⟩

theorem nodup_aggKeys_aggregate (items : List LineItem) :
    (aggKeys (aggregate items)).Nodup :=
  nodup_aggKeys_foldl items [] List.nodup_nil

theorem mem_aggKeys_aggregate (items : List LineItem) (key : String × String) :
    key ∈ aggKeys (aggregate items) ↔ ∃ it ∈ items, key = (it.name, it.unit) := by
  unfold aggregate
  rw [mem_aggKeys_foldl]
  simp [aggKeys]

/-! ### Transfer along the sort -/

theorem perm_ingredients_list (db : DB) (uid : Nat) :
    List.Perm (ingredients_list db uid) (aggregate (cartLineItems db uid)) :=
  List.perm_insertionSort nameLe _

theorem rowTotal_perm {l1 l2 : List AggRow} (h : List.Perm l1 l2)
    (n u : String) : rowTotal n u l1 = rowTotal n u l2 :=
  List.Perm.sum_eq (List.Perm.map _ (List.Perm.filter _ h))

theorem aggKeys_perm {l1 l2 : List AggRow} (h : List.Perm l1 l2) :
    List.Perm (aggKeys l1) (aggKeys l2) :=
  List.Perm.map _ h

theorem cartLineItems_of_no_cart {db : DB} {uid : Nat}
    (h : db.shopping.filter (fun r => r.user_id == uid) = []) :
    cartLineItems db uid = [] := by
  unfold cartLineItems shoppingRecipeIds
  rw [h]
  simp

theorem ingredients_list_of_no_items {db : DB} {uid : Nat}
    (h : cartLineItems db uid = []) : ingredients_list db uid = [] := by
  unfold ingredients_list
  rw [h]
  rfl

/-! ### The claims about the aggregation engine -/

/-- Claim C1: for every user, the shopping-list aggregation groups the
line items of the cart recipes by the (ingredient name, measurement unit)
pair, not by ingredient_id, and sums the amount across all matching line
items: each key occurs on exactly one output record, that record's total
over the output equals the sum over the fetched line items with that key,
a key appears in the output exactly when some cart line item carries it,
and the two-recipe Flour example with distinct ingredient records merges
into the single record Flour, 150, g. -/
theorem C1_aggregation_groups_by_name_unit_and_sums :
    (∀ (db : DB) (uid : Nat) (n u : String),
      rowTotal n u (ingredients_list db uid) =
        keyTotal n u (cartLineItems db uid)) ∧
    (∀ (db : DB) (uid : Nat), (aggKeys (ingredients_list db uid)).Nodup) ∧
    (∀ (db : DB) (uid : Nat) (key : String × String),
      key ∈ aggKeys (ingredients_list db uid) ↔
        ∃ it ∈ cartLineItems db uid, key = (it.name, it.unit)) ∧
    ingredients_list flourDb 1 = [⟨"Flour", 150, "g"⟩] := by
  refine ⟨fun db uid n u => ?_, fun db uid => ?_, fun db uid key => ?_, by decide⟩
  · rw [rowTotal_perm (perm_ingredients_list db uid), rowTotal_aggregate]
  · exact (List.Perm.nodup_iff (aggKeys_perm (perm_ingredients_list db uid))).mpr
      (nodup_aggKeys_aggregate _)
  · exact (List.Perm.mem_iff (aggKeys_perm (perm_ingredients_list db uid))).trans
      (mem_aggKeys_aggregate _ key)

/-- Claim C8: for every user the aggregated shopping-list output is sorted
ascending by ingredient name, and the Zucchini, Apple, Milk example comes
out as Apple, Milk, Zucchini. -/
theorem C8_output_sorted_by_name :
    (∀ (db : DB) (uid : Nat), sortedByName (ingredients_list db uid)) ∧
    (ingredients_list zucchiniDb 1).map (fun r => r.name) =
      ["Apple", "Milk", "Zucchini"] := by
  constructor
  · intro db uid
    haveI : IsTotal AggRow nameLe :=
      ⟨fun a b => charLeb_total a.name.data b.name.data⟩
    haveI : IsTrans AggRow nameLe :=
      ⟨fun _ _ _ hab hbc => charLeb_trans hab hbc⟩
    exact List.sorted_insertionSort nameLe _
  · decide

/-- Claim C2: a user with zero shopping-cart relations receives the
explicit empty-result signal, which is not an error; and when the
line-item fetch fails the endpoint reports the retryable infrastructure
error, never the empty-result signal. -/
theorem C2_empty_signal_and_fetch_failure (db : DB) (uid : Nat) :
    (db.shopping.filter (fun r => r.user_id == uid) = [] →
      shoppingPDFGet db uid false = ShoppingListResult.noContent) ∧
    shoppingPDFGet db uid true = ShoppingListResult.serverError ∧
    ShoppingListResult.serverError ≠ ShoppingListResult.noContent := by
  refine ⟨fun h => ?_, rfl, by decide⟩
  have h2 := ingredients_list_of_no_items (cartLineItems_of_no_cart h)
  simp [shoppingPDFGet, h2]

/-- Witness for C2 at a concrete store: user 2 has no cart relations in
zucchiniDb and receives the empty-result signal. -/
theorem C2_empty_signal_and_fetch_failure_witness :
    shoppingPDFGet zucchiniDb 2 false = ShoppingListResult.noContent :=
  (C2_empty_signal_and_fetch_failure zucchiniDb 2).1 (by decide)

/-- Claim C9: the empty-result signal is decided on the aggregated
line-item list, not on the cart relations: a user whose cart is non-empty
but whose cart recipes carry no line items receives the empty-result
signal rather than a document. -/
theorem C9_empty_decided_on_line_items (db : DB) (uid : Nat)
    (hcart : shoppingRecipeIds db uid ≠ [])
    (hitems : cartLineItems db uid = []) :
    shoppingPDFGet db uid false = ShoppingListResult.noContent := by
  have h2 := ingredients_list_of_no_items hitems
  simp [shoppingPDFGet, h2]

/-- Witness for C9 at a concrete store: user 1's cart holds recipe 10,
which has no line items. -/
theorem C9_empty_decided_on_line_items_witness :
    shoppingRecipeIds cartNoItemsDb 1 ≠ [] ∧
    shoppingPDFGet cartNoItemsDb 1 false = ShoppingListResult.noContent :=
  ⟨by decide, C9_empty_decided_on_line_items cartNoItemsDb 1 (by decide) (by decide)⟩

/-! ### Subscription listing -/

/-- Claim C10: in the subscription listing, a recipes_limit of exactly 0 is
treated like an absent limit, returning every recipe of the followed user,
while a negative recipes_limit is a validation error. -/
theorem C10_zero_limit_behaves_as_absent (rs : List Recipe) (n : Int) :
    get_recipes (some 0) rs = RecipesLimitResult.recipesData rs ∧
    get_recipes none rs = RecipesLimitResult.recipesData rs ∧
    (n < 0 → get_recipes (some n) rs = RecipesLimitResult.limitValidationError) := by
  refine ⟨by simp [get_recipes], rfl, fun h => ?_⟩
  simp [get_recipes, h]

/-- Witness for C10: a limit of minus one on an empty recipe list is the
validation error. -/
theorem C10_zero_limit_behaves_as_absent_witness :
    get_recipes (some (-1)) [] = RecipesLimitResult.limitValidationError :=
  (C10_zero_limit_behaves_as_absent [] (-1)).2.2 (by decide)

/-! ### Subscription engine -/

/-- Claim C7: subscribing to oneself always fails with
SelfSubscribeForbidden, whatever the follow state, and no Follow record
with follower equal to followee is ever created: Follow.save refuses self
rows, so a store free of self rows stays free of them. -/
theorem C7_self_subscribe_forbidden (u : User) (follows : List Follow)
    (f g : Follow) (fs2 : List Follow) :
    subscribe_validate true true u (some u) follows =
      Except.error SubscribeError.selfSubscribeForbidden ∧
    subscribePost u u follows =
      SubscribeResult.badRequest SubscribeError.selfSubscribeForbidden ∧
    ((∀ x ∈ follows, x.user_id ≠ x.author_id) →
      followSave follows f = Except.ok fs2 →
      g ∈ fs2 → g.user_id ≠ g.author_id) := by
  have hv : subscribe_validate true true u (some u) follows =
      Except.error SubscribeError.selfSubscribeForbidden := by
    simp [subscribe_validate]
  refine ⟨hv, by simp [subscribePost, hv], fun hinv hsave hg => ?_⟩
  unfold followSave at hsave
  split_ifs at hsave with h1 h2
  rw [Except.ok.injEq] at hsave
  subst hsave
  rw [List.mem_append] at hg
  rcases hg with hg | hg
  · exact hinv g hg
  · rw [List.mem_singleton] at hg
    subst hg
    intro hEq
    exact h1 (by simp [hEq])

/-- Witness for C7: user 1 subscribing to user 1 over the follow state
holding only the edge from 1 to 2 is rejected, and saving the non-self
edge from 2 to 1 keeps the store free of self rows. -/
theorem C7_self_subscribe_forbidden_witness :
    subscribePost ⟨1, true⟩ ⟨1, true⟩ [⟨1, 2⟩] =
      SubscribeResult.badRequest SubscribeError.selfSubscribeForbidden ∧
    (⟨2, 1⟩ : Follow).user_id ≠ (⟨2, 1⟩ : Follow).author_id :=
  ⟨(C7_self_subscribe_forbidden ⟨1, true⟩ [⟨1, 2⟩] ⟨2, 1⟩ ⟨2, 1⟩
      [⟨1, 2⟩, ⟨2, 1⟩]).2.1,
   (C7_self_subscribe_forbidden ⟨1, true⟩ [⟨1, 2⟩] ⟨2, 1⟩ ⟨2, 1⟩
      [⟨1, 2⟩, ⟨2, 1⟩]).2.2 (by decide) rfl (by decide)⟩

/-! ### Collection validator lemmas -/

theorem nodup_iff_length_dedup {l : List Nat} :
    l.Nodup ↔ l.length = l.dedup.length := by
  constructor
  · intro h
    rw [List.dedup_eq_self.mpr h]
  · intro h
    have hd : l.dedup = l := (List.dedup_sublist l).eq_of_length h.symm
    rw [← hd]
    exact List.nodup_dedup l

theorem vinuc_nil {α : Type} (getId : α → Nat) (existing : List Nat)
    (pfx : String) :
    validate_ids_not_null_unique_collection getId existing pfx [] =
      Except.error (ValidationError.fieldRequired pfx) := rfl

theorem vinuc_cons {α : Type} (getId : α → Nat) (existing : List Nat)
    (pfx : String) (a : α) (l : List α) :
    validate_ids_not_null_unique_collection getId existing pfx (a :: l) =
      (if ((a :: l).map getId).length ≠ ((a :: l).map getId).dedup.length then
        Except.error (ValidationError.duplicateIds pfx)
      else if (((a :: l).map getId).dedup.filter (fun i =>
          !(existing.filter
              (fun j => ((a :: l).map getId).contains j)).contains i)).isEmpty then
        Except.ok (a :: l)
      else Except.error (ValidationError.idsNotFound pfx)) := rfl

theorem vinuc_duplicate {α : Type} (getId : α → Nat) (existing : List Nat)
    (pfx : String) (values : List α) (hne : values ≠ [])
    (hdup : ¬(values.map getId).Nodup) :
    validate_ids_not_null_unique_collection getId existing pfx values =
      Except.error (ValidationError.duplicateIds pfx) := by
  cases values with
  | nil => exact absurd rfl hne
  | cons a l =>
    rw [vinuc_cons]
    rw [if_pos (fun hEq => hdup (nodup_iff_length_dedup.mpr hEq))]

theorem vinuc_ok {α : Type} (getId : α → Nat) (existing : List Nat)
    (pfx : String) (values : List α) (hne : values ≠ [])
    (hnodup : (values.map getId).Nodup)
    (hex : ∀ id ∈ values.map getId, id ∈ existing) :
    validate_ids_not_null_unique_collection getId existing pfx values =
      Except.ok values := by
  cases values with
  | nil => exact absurd rfl hne
  | cons a l =>
    rw [vinuc_cons]
    rw [if_neg (fun h => h (nodup_iff_length_dedup.mp hnodup))]
    have hall : (((a :: l).map getId).dedup.filter (fun i =>
        !(existing.filter
            (fun j => ((a :: l).map getId).contains j)).contains i)) = [] := by
      rw [List.filter_eq_nil_iff]
      intro i hi
      rw [List.mem_dedup] at hi
      have hcont : (((a :: l).map getId)).contains i = true := by
        show List.elem i ((a :: l).map getId) = true
        rw [List.elem_iff]
        exact hi
      have hmem : i ∈ existing.filter
          (fun j => ((a :: l).map getId).contains j) := by
        rw [List.mem_filter]
        exact ⟨hex i hi, hcont⟩
      have hcont2 : (existing.filter
          (fun j => ((a :: l).map getId).contains j)).contains i = true := by
        show List.elem i _ = true
        rw [List.elem_iff]
        exact hmem
      rw [hcont2]
      decide
    rw [hall]
    rfl

theorem vinuc_missing {α : Type} (getId : α → Nat) (existing : List Nat)
    (pfx : String) (values : List α) (hne : values ≠ [])
    (hnodup : (values.map getId).Nodup)
    (hmiss : ∃ id ∈ values.map getId, id ∉ existing) :
    validate_ids_not_null_unique_collection getId existing pfx values =
      Except.error (ValidationError.idsNotFound pfx) := by
  cases values with
  | nil => exact absurd rfl hne
  | cons a l =>
    rw [vinuc_cons]
    rw [if_neg (fun h => h (nodup_iff_length_dedup.mp hnodup))]
    obtain ⟨i, hi, hnot⟩ := hmiss
    have hmemMissing : i ∈ (((a :: l).map getId).dedup.filter (fun i =>
        !(existing.filter
            (fun j => ((a :: l).map getId).contains j)).contains i)) := by
      rw [List.mem_filter]
      refine ⟨List.mem_dedup.mpr hi, ?_⟩
      have hcont3 : (existing.filter
          (fun j => ((a :: l).map getId).contains j)).contains i = false := by
        show List.elem i _ = false
        simp only [List.elem_eq_mem, List.mem_filter, decide_eq_false_iff_not]
        intro hand
        exact hnot hand.1
      rw [hcont3]
      rfl
    rw [if_neg (fun h =>
      (List.ne_nil_of_mem hmemMissing) (List.isEmpty_iff.mp h))]

/-! ### Amount validation lemmas -/

theorem validate_amounts_ok_of_pos (l : List IngredientPayload) :
    (∀ i ∈ l, 0 < i.amount) → validate_amounts l = Except.ok () := by
  induction l with
  | nil => intro _; rfl
  | cons i rest ih =>
    intro hpos
    unfold validate_amounts validate_positive_amount
    rw [if_pos (hpos i (List.mem_cons_self _ _))]
    exact ih (fun x hx => hpos x (List.mem_cons_of_mem _ hx))

theorem validate_amounts_error_of_bad (l : List IngredientPayload) :
    (∃ i ∈ l, i.amount ≤ 0) →
    validate_amounts l = Except.error ValidationError.invalidAmount := by
  induction l with
  | nil =>
    rintro ⟨i, hi, _⟩
    cases hi
  | cons i rest ih =>
    rintro ⟨j, hj, hbad⟩
    unfold validate_amounts validate_positive_amount
    by_cases hi : 0 < i.amount
    · rw [if_pos hi]
      apply ih
      rcases List.mem_cons.mp hj with rfl | hj2
      · exact absurd hi (by omega)
      · exact ⟨j, hj2, hbad⟩
    · rw [if_neg hi]

theorem pos_of_validate_amounts_ok (l : List IngredientPayload) :
    validate_amounts l = Except.ok () → ∀ i ∈ l, 0 < i.amount := by
  induction l with
  | nil =>
    intro _ i hi
    cases hi
  | cons i rest ih =>
    intro h j hj
    unfold validate_amounts validate_positive_amount at h
    by_cases hi : 0 < i.amount
    · rw [if_pos hi] at h
      rcases List.mem_cons.mp hj with rfl | hj2
      · exact hi
      · exact ih h j hj2
    · rw [if_neg hi] at h
      simp at h

theorem validate_ingredients_eq (db : DB) (l : List IngredientPayload)
    (hpos : ∀ i ∈ l, 0 < i.amount) :
    validate_ingredients db l =
      validate_ids_not_null_unique_collection (fun i => i.id)
        (ingredientIds db) "ingredients" l := by
  unfold validate_ingredients
  rw [validate_amounts_ok_of_pos l hpos]

theorem amounts_ok_of_validate_ingredients_ok {db : DB}
    {l : List IngredientPayload} {v : List IngredientPayload}
    (h : validate_ingredients db l = Except.ok v) :
    validate_amounts l = Except.ok () := by
  unfold validate_ingredients at h
  cases ha : validate_amounts l with
  | ok u => cases u; rfl
  | error e =>
    rw [ha] at h
    simp at h

theorem hpos_of_is_valid_ok {db : DB} {p : RecipePayload} {u : Unit}
    (h : is_valid db p = Except.ok u) : ∀ i ∈ p.ingredients, 0 < i.amount := by
  unfold is_valid at h
  cases h1 : validate_tags db p.tags with
  | ok v1 =>
    cases h2 : validate_ingredients db p.ingredients with
    | ok v2 =>
      exact pos_of_validate_amounts_ok _ (amounts_ok_of_validate_ingredients_ok h2)
    | error e =>
      rw [h1, h2] at h
      simp at h
  | error e1 =>
    cases h2 : validate_ingredients db p.ingredients with
    | ok v2 =>
      rw [h1, h2] at h
      simp at h
    | error e2 =>
      rw [h1, h2] at h
      simp at h

/-! ### The claim about collection validation -/

/-- Claim C5: on a recipe create or update request, the tag and ingredient
collections must each be non-empty, duplicate-free and fully resolvable,
else validation fails with an error naming the collection and whether the
issue was emptiness, duplication or a missing id; in particular the tag
list 1, 1, 2 fails citing duplication instead of being deduplicated, and a
valid collection is returned unchanged. -/
theorem C5_collection_validation (db : DB) (tagsP : List TagPayload)
    (ingsP : List IngredientPayload) :
    (tagsP = [] →
      validate_tags db tagsP =
        Except.error (ValidationError.fieldRequired "tags")) ∧
    (tagsP ≠ [] → ¬(tagsP.map (fun t => t.id)).Nodup →
      validate_tags db tagsP =
        Except.error (ValidationError.duplicateIds "tags")) ∧
    (tagsP ≠ [] → (tagsP.map (fun t => t.id)).Nodup →
      (∃ t ∈ tagsP, t.id ∉ tagIds db) →
      validate_tags db tagsP =
        Except.error (ValidationError.idsNotFound "tags")) ∧
    (tagsP ≠ [] → (tagsP.map (fun t => t.id)).Nodup →
      (∀ t ∈ tagsP, t.id ∈ tagIds db) →
      validate_tags db tagsP = Except.ok tagsP) ∧
    ((∀ i ∈ ingsP, 0 < i.amount) → ingsP = [] →
      validate_ingredients db ingsP =
        Except.error (ValidationError.fieldRequired "ingredients")) ∧
    ((∀ i ∈ ingsP, 0 < i.amount) → ingsP ≠ [] →
      ¬(ingsP.map (fun i => i.id)).Nodup →
      validate_ingredients db ingsP =
        Except.error (ValidationError.duplicateIds "ingredients")) ∧
    ((∀ i ∈ ingsP, 0 < i.amount) → ingsP ≠ [] →
      (ingsP.map (fun i => i.id)).Nodup →
      (∃ i ∈ ingsP, i.id ∉ ingredientIds db) →
      validate_ingredients db ingsP =
        Except.error (ValidationError.idsNotFound "ingredients")) ∧
    ((∀ i ∈ ingsP, 0 < i.amount) → ingsP ≠ [] →
      (ingsP.map (fun i => i.id)).Nodup →
      (∀ i ∈ ingsP, i.id ∈ ingredientIds db) →
      validate_ingredients db ingsP = Except.ok ingsP) ∧
    validate_tags db [⟨1⟩, ⟨1⟩, ⟨2⟩] =
      Except.error (ValidationError.duplicateIds "tags") := by
  refine ⟨?_, ?_, ?_, ?_, ?_, ?_, ?_, ?_, ?_⟩
  · intro h
    subst h
    exact vinuc_nil _ _ _
  · intro hne hdup
    exact vinuc_duplicate _ _ _ _ hne hdup
  · rintro hne hnodup ⟨t, ht, hmiss⟩
    exact vinuc_missing _ _ _ _ hne hnodup
      ⟨t.id, List.mem_map_of_mem _ ht, hmiss⟩
  · intro hne hnodup hex
    refine vinuc_ok _ _ _ _ hne hnodup ?_
    intro id hid
    rw [List.mem_map] at hid
    obtain ⟨t, ht, rfl⟩ := hid
    exact hex t ht
  · intro _ h
    subst h
    rfl
  · intro hpos hne hdup
    rw [validate_ingredients_eq db ingsP hpos]
    exact vinuc_duplicate _ _ _ _ hne hdup
  · rintro hpos hne hnodup ⟨i, hi, hmiss⟩
    rw [validate_ingredients_eq db ingsP hpos]
    exact vinuc_missing _ _ _ _ hne hnodup
      ⟨i.id, List.mem_map_of_mem _ hi, hmiss⟩
  · intro hpos hne hnodup hex
    rw [validate_ingredients_eq db ingsP hpos]
    refine vinuc_ok _ _ _ _ hne hnodup ?_
    intro id hid
    rw [List.mem_map] at hid
    obtain ⟨i, hi, rfl⟩ := hid
    exact hex i hi
  · exact vinuc_duplicate _ _ _ _ (by simp) (by decide)

/-- Witness for C5: the tag list 1, 1, 2 against the concrete store fails
citing duplication of the tags collection. -/
theorem C5_collection_validation_witness :
    validate_tags recipeDb [⟨1⟩, ⟨1⟩, ⟨2⟩] =
      Except.error (ValidationError.duplicateIds "tags") :=
  (C5_collection_validation recipeDb [⟨1⟩, ⟨1⟩, ⟨2⟩] []).2.1
    (by simp) (by decide)

/-! ### Save-path lemmas for amount preservation -/

theorem save_ingredients_pos {inj : BulkInsertOutcome}
    {ing : List IngredientPayload} {rid : Nat} {db db1 : DB}
    (h : save_ingredients inj ing rid db = Except.ok db1)
    (hall : allAmountsPos db) (hpos : ∀ i ∈ ing, 0 < i.amount) :
    allAmountsPos db1 := by
  cases inj with
  | failsAfter k => simp [save_ingredients] at h
  | succeeds =>
    unfold save_ingredients at h
    rw [Except.ok.injEq] at h
    subst h
    intro r hr
    simp only [List.mem_append] at hr
    rcases hr with hr | hr
    · exact hall r (List.mem_of_mem_filter hr)
    · unfold rowsOfPayload at hr
      rw [List.mem_map] at hr
      obtain ⟨d, hd, rfl⟩ := hr
      exact hpos d hd

theorem updateRecipe_pos {inj : BulkInsertOutcome} {rid : Nat}
    {p : RecipePayload} {db db1 : DB}
    (h : updateRecipe inj rid p db = Except.ok db1)
    (hall : allAmountsPos db) (hpos : ∀ i ∈ p.ingredients, 0 < i.amount) :
    allAmountsPos db1 := by
  unfold updateRecipe at h
  cases hsi : save_ingredients inj p.ingredients rid db with
  | error e =>
    rw [hsi] at h
    simp at h
  | ok dbi =>
    simp only [hsi, Except.ok.injEq] at h
    subst h
    have hi := save_ingredients_pos hsi hall hpos
    intro r hr
    exact hi r hr

theorem createRecipe_pos {inj : BulkInsertOutcome} {newId author_id : Nat}
    {p : RecipePayload} {db db1 : DB}
    (h : createRecipe inj newId author_id p db = Except.ok db1)
    (hall : allAmountsPos db) (hpos : ∀ i ∈ p.ingredients, 0 < i.amount) :
    allAmountsPos db1 := by
  unfold createRecipe at h
  cases hsi : save_ingredients inj p.ingredients newId
      { db with recipes :=
          db.recipes ++ [⟨newId, author_id, p.name, p.text, p.cooking_time⟩] } with
  | error e =>
    rw [hsi] at h
    simp at h
  | ok dbi =>
    simp only [hsi, Except.ok.injEq] at h
    subst h
    have hall0 : allAmountsPos { db with recipes :=
        db.recipes ++ [⟨newId, author_id, p.name, p.text, p.cooking_time⟩] } :=
      fun r hr => hall r hr
    have hi := save_ingredients_pos hsi hall0 hpos
    intro r hr
    exact hi r hr

/-! ### The claim about positive amounts -/

/-- Claim C4: a recipe create or update request carrying an ingredient
amount that is not a positive integer fails with InvalidAmount among its
validation errors and leaves the store untouched; and no line item with a
non-positive amount is ever stored, since the request operation preserves
positivity of every stored amount. -/
theorem C4_positive_amounts (db : DB) (p : RecipePayload)
    (inj : BulkInsertOutcome) (instanceId : Option Nat)
    (newId author_id : Nat) :
    ((∃ i ∈ p.ingredients, i.amount ≤ 0) →
      ValidationError.invalidAmount ∈ validationErrors db p ∧
      (handle_request inj instanceId newId author_id p db).1 ≠
        RequestOutcome.success ∧
      (handle_request inj instanceId newId author_id p db).2 = db) ∧
    (allAmountsPos db →
      allAmountsPos (handle_request inj instanceId newId author_id p db).2) := by
  constructor
  · intro hbad
    have hing : validate_ingredients db p.ingredients =
        Except.error ValidationError.invalidAmount := by
      unfold validate_ingredients
      rw [validate_amounts_error_of_bad p.ingredients hbad]
    cases htags : validate_tags db p.tags with
    | ok v =>
      have hiv : is_valid db p =
          Except.error [ValidationError.invalidAmount] := by
        unfold is_valid
        rw [htags, hing]
      exact ⟨by simp [validationErrors, hiv],
        by simp [handle_request, hiv],
        by simp [handle_request, hiv]⟩
    | error e =>
      have hiv : is_valid db p =
          Except.error [e, ValidationError.invalidAmount] := by
        unfold is_valid
        rw [htags, hing]
      exact ⟨by simp [validationErrors, hiv],
        by simp [handle_request, hiv],
        by simp [handle_request, hiv]⟩
  · intro hall
    cases hiv : is_valid db p with
    | error errs => simpa [handle_request, hiv] using hall
    | ok u =>
      have hpos := hpos_of_is_valid_ok hiv
      cases instanceId with
      | some rid =>
        cases hup : updateRecipe inj rid p db with
        | error ed =>
          obtain ⟨e, d⟩ := ed
          simpa [handle_request, hiv, hup] using hall
        | ok dbu =>
          have hres := updateRecipe_pos hup hall hpos
          simpa [handle_request, hiv, hup] using hres
      | none =>
        cases hcr : createRecipe inj newId author_id p db with
        | error ed =>
          obtain ⟨e, d⟩ := ed
          simpa [handle_request, hiv, hcr] using hall
        | ok dbc =>
          have hres := createRecipe_pos hcr hall hpos
          simpa [handle_request, hiv, hcr] using hres

/-- Witness for C4: the zero-amount payload against the concrete store is
rejected with InvalidAmount and leaves the store untouched, and the valid
payload keeps every stored amount positive. -/
theorem C4_positive_amounts_witness :
    ValidationError.invalidAmount ∈ validationErrors recipeDb payloadBadAmount ∧
    (handle_request BulkInsertOutcome.succeeds (some 10) 99 1
      payloadBadAmount recipeDb).2 = recipeDb ∧
    allAmountsPos (handle_request BulkInsertOutcome.succeeds (some 10) 99 1
      payloadOk recipeDb).2 :=
  ⟨((C4_positive_amounts recipeDb payloadBadAmount BulkInsertOutcome.succeeds
      (some 10) 99 1).1 (by decide)).1,
   ((C4_positive_amounts recipeDb payloadBadAmount BulkInsertOutcome.succeeds
      (some 10) 99 1).1 (by decide)).2.2,
   (C4_positive_amounts recipeDb payloadOk BulkInsertOutcome.succeeds
      (some 10) 99 1).2 (by
        intro r hr
        simp only [recipeDb, List.mem_singleton] at hr
        subst hr
        decide)⟩

/-! ### The claim about atomicity -/

/-- Claim C3: a recipe create or update request is one atomic transaction:
whenever the request does not succeed, in particular when a failure is
injected during the ingredient bulk insert of an update, the observable
store afterwards is exactly the store before the request, so the recipe's
tags are unchanged. -/
theorem C3_atomic_recipe_save (inj : BulkInsertOutcome)
    (instanceId : Option Nat) (newId author_id : Nat) (p : RecipePayload)
    (db : DB) (rid : Nat) :
    (handle_request inj instanceId newId author_id p db).1 ≠
      RequestOutcome.success →
    (handle_request inj instanceId newId author_id p db).2 = db ∧
    recipeTagIds (handle_request inj instanceId newId author_id p db).2 rid =
      recipeTagIds db rid := by
  intro hfail
  suffices hsnd : (handle_request inj instanceId newId author_id p db).2 = db by
    exact ⟨hsnd, by rw [hsnd]⟩
  cases hiv : is_valid db p with
  | error errs => simp [handle_request, hiv]
  | ok u =>
    cases instanceId with
    | some rid0 =>
      cases hup : updateRecipe inj rid0 p db with
      | ok db1 =>
        exact absurd (by simp [handle_request, hiv, hup]) hfail
      | error ed =>
        obtain ⟨e, d⟩ := ed
        simp [handle_request, hiv, hup]
    | none =>
      cases hcr : createRecipe inj newId author_id p db with
      | ok db1 =>
        exact absurd (by simp [handle_request, hiv, hcr]) hfail
      | error ed =>
        obtain ⟨e, d⟩ := ed
        simp [handle_request, hiv, hcr]

/-- Witness for C3: injecting a failure during the ingredient bulk insert
of a valid update of recipe 10 leaves the store, and in particular the
tags of recipe 10, exactly as before. -/
theorem C3_atomic_recipe_save_witness :
    (handle_request (BulkInsertOutcome.failsAfter 0) (some 10) 99 1
      payloadOk recipeDb).2 = recipeDb ∧
    recipeTagIds (handle_request (BulkInsertOutcome.failsAfter 0) (some 10) 99 1
      payloadOk recipeDb).2 10 = recipeTagIds recipeDb 10 :=
  C3_atomic_recipe_save (BulkInsertOutcome.failsAfter 0) (some 10) 99 1
    payloadOk recipeDb 10 (by decide)

/-! ### Relation uniqueness lemmas -/

theorem relRows_setRelRows (db : DB) (k : RelKind) (rows : List UsingRecipe) :
    relRows (setRelRows db k rows) k = rows := by
  cases k <;> rfl

theorem recipes_setRelRows (db : DB) (k : RelKind) (rows : List UsingRecipe) :
    (setRelRows db k rows).recipes = db.recipes := by
  cases k <;> rfl

theorem handle_action_post_eq_of_empty (db : DB) (k : RelKind) (uid rid : Nat)
    (hrec : db.recipes.any (fun r => r.id == rid) = true)
    (hfil : (relRows db k).filter
      (fun r => r.user_id == uid && r.recipe_id == rid) = []) :
    handle_action_post db k uid rid =
      (ActionResult.created, setRelRows db k (relRows db k ++ [⟨uid, rid⟩])) := by
  have hany : ((relRows db k).any
      (fun r => r.user_id == uid && r.recipe_id == rid)) = false := by
    rw [List.any_eq_false]
    exact fun x hx => List.filter_eq_nil_iff.mp hfil x hx
  simp [handle_action_post, storeInsertRelation, hrec, hfil, hany]

theorem handle_action_post_eq_of_nonempty (db : DB) (k : RelKind)
    (uid rid : Nat)
    (hrec : db.recipes.any (fun r => r.id == rid) = true)
    (hne : (relRows db k).filter
      (fun r => r.user_id == uid && r.recipe_id == rid) ≠ []) :
    handle_action_post db k uid rid = (ActionResult.alreadyExists k, db) := by
  unfold handle_action_post
  rw [if_pos hrec, if_neg (fun h => hne (List.isEmpty_iff.mp h))]

theorem handle_action_post_eq_of_norecipe (db : DB) (k : RelKind)
    (uid rid : Nat)
    (hrec : db.recipes.any (fun r => r.id == rid) = false) :
    handle_action_post db k uid rid = (ActionResult.notFound, db) := by
  unfold handle_action_post
  rw [if_neg (fun h => absurd h (by simp [hrec]))]

theorem relCount_insert (db : DB) (k : RelKind) (uid rid : Nat)
    (hfil : (relRows db k).filter
      (fun r => r.user_id == uid && r.recipe_id == rid) = []) :
    relCount (setRelRows db k (relRows db k ++ [⟨uid, rid⟩])) k uid rid = 1 := by
  unfold relCount
  rw [relRows_setRelRows, List.filter_append, hfil]
  simp

/-! ### The claim about relation uniqueness -/

/-- Claim C6: at most one relation row of a given kind exists per
(user, recipe): adding when the relation already exists fails with the
kind-specific AlreadyExists response and leaves exactly one row, the
store-level uniqueness constraint refuses a duplicate insert even when the
application-level existence check is bypassed, and the add action
preserves the at-most-one invariant. -/
theorem C6_relation_uniqueness (db : DB) (k : RelKind) (uid rid : Nat)
    (rows rows2 : List UsingRecipe) (row : UsingRecipe) :
    (db.recipes.any (fun r => r.id == rid) = true →
      relCount db k uid rid = 0 →
      (handle_action_post db k uid rid).1 = ActionResult.created ∧
      relCount (handle_action_post db k uid rid).2 k uid rid = 1 ∧
      handle_action_post (handle_action_post db k uid rid).2 k uid rid =
        (ActionResult.alreadyExists k, (handle_action_post db k uid rid).2)) ∧
    (storeInsertRelation rows row = Except.ok rows2 →
      storeInsertRelation rows2 row = Except.error ()) ∧
    (relCount db k uid rid ≤ 1 →
      relCount (handle_action_post db k uid rid).2 k uid rid ≤ 1) := by
  refine ⟨?_, ?_, ?_⟩
  · intro hrec hcount
    have hfil : (relRows db k).filter
        (fun r => r.user_id == uid && r.recipe_id == rid) = [] := by
      unfold relCount at hcount
      exact List.length_eq_zero.mp hcount
    have hpost := handle_action_post_eq_of_empty db k uid rid hrec hfil
    have hfil2 : (relRows (setRelRows db k (relRows db k ++ [⟨uid, rid⟩])) k).filter
        (fun r => r.user_id == uid && r.recipe_id == rid) = [⟨uid, rid⟩] := by
      rw [relRows_setRelRows, List.filter_append, hfil]
      simp
    refine ⟨by rw [hpost], ?_, ?_⟩
    · rw [hpost]
      exact relCount_insert db k uid rid hfil
    · rw [hpost]
      exact handle_action_post_eq_of_nonempty _ _ _ _
        (by rw [recipes_setRelRows]; exact hrec)
        (by rw [hfil2]; simp)
  · intro hok
    unfold storeInsertRelation at hok ⊢
    by_cases hdup : (rows.any (fun r =>
        r.user_id == row.user_id && r.recipe_id == row.recipe_id)) = true
    · rw [if_pos hdup] at hok
      simp at hok
    · rw [if_neg hdup] at hok
      rw [Except.ok.injEq] at hok
      subst hok
      rw [if_pos (by
        rw [List.any_append]
        simp)]
  · intro hle
    by_cases hrec : (db.recipes.any (fun r => r.id == rid)) = true
    · by_cases hemp : (relRows db k).filter
          (fun r => r.user_id == uid && r.recipe_id == rid) = []
      · rw [handle_action_post_eq_of_empty db k uid rid hrec hemp]
        rw [relCount_insert db k uid rid hemp]
      · rw [handle_action_post_eq_of_nonempty db k uid rid hrec hemp]
        exact hle
    · rw [handle_action_post_eq_of_norecipe db k uid rid
        (by simpa using hrec)]
      exact hle

/-- Witness for C6: adding recipe 10 to user 1's empty shopping cart
succeeds, the second add answers AlreadyExists for the cart kind, the
store keeps exactly one row, and the direct duplicate store insert is
refused by the constraint. -/
theorem C6_relation_uniqueness_witness :
    (handle_action_post recipeDb RelKind.shopping 1 10).1 =
      ActionResult.created ∧
    relCount (handle_action_post recipeDb RelKind.shopping 1 10).2
      RelKind.shopping 1 10 = 1 ∧
    handle_action_post (handle_action_post recipeDb RelKind.shopping 1 10).2
      RelKind.shopping 1 10 =
      (ActionResult.alreadyExists RelKind.shopping,
        (handle_action_post recipeDb RelKind.shopping 1 10).2) ∧
    storeInsertRelation [⟨1, 10⟩] ⟨1, 10⟩ = Except.error () :=
  ⟨((C6_relation_uniqueness recipeDb RelKind.shopping 1 10 [] [⟨1, 10⟩]
      ⟨1, 10⟩).1 (by decide) (by decide)).1,
   ((C6_relation_uniqueness recipeDb RelKind.shopping 1 10 [] [⟨1, 10⟩]
      ⟨1, 10⟩).1 (by decide) (by decide)).2.1,
   ((C6_relation_uniqueness recipeDb RelKind.shopping 1 10 [] [⟨1, 10⟩]
      ⟨1, 10⟩).1 (by decide) (by decide)).2.2,
   (C6_relation_uniqueness recipeDb RelKind.shopping 1 10 [] [⟨1, 10⟩]
      ⟨1, 10⟩).2.1 rfl⟩

end Foodgram
